import Mathlib

/-!
Verification of the pgo plugin-builder core (package `builder`, plus the
top-level `pgo.Build` entry point).  The Go source is shallowly embedded:
pure helpers become Lean functions, the effectful orchestration
(`Service.Build` and its helpers) becomes explicit state passing over a
filesystem model together with a trace of the external calls each run
performs.  External collaborators (the abstract file-transfer layer, the
process runner, the network client, the container runtime) and repository
code that is not part of the embedded sources (the `build` package's
`Validate`/`Init`/`GetModeWithSpec`, the `Snapshot` methods, the client)
enter as oracle parameters collected in `Ext`, or — where a claim depends
on their behaviour — as definitions modelled from the specification and
marked as such.
-/

namespace Pgo

/-- Target platform: OS and architecture pair (`build.Runtime`). -/
structure Runtime where
  os : String
  arch : String
deriving DecidableEq, Repr

/-- The Go-toolchain related part of a build spec (`build.Go`): target
runtime, compiler version, the forced-delegation flag `EnsureTheSameOs`,
and explicit environment variables.  Go's `map[string]string` is modelled
as an association list in iteration order. -/
structure GoBuild where
  runtime : Runtime
  version : String
  ensureTheSameOs : Bool
  env : List (String × String)
deriving DecidableEq, Repr

/-- A build request (`build.Build`): name, Go settings, and the packed
source bundle bytes (`Source.Data`, modelled as a string of bytes; empty
means not yet packed). -/
structure BuildSpec where
  name : String
  go : GoBuild
  sourceData : String
deriving DecidableEq, Repr

/-- Compiler invocation assembled by `Service.build`: command, arguments,
working directory and child-process environment. -/
structure Command where
  cmd : String
  args : List String
  dir : String
  env : List String
deriving DecidableEq, Repr

/-- Error values surfaced by the builder.  Constructors follow the error
sites of the source; oracle-produced failures use the payload-carrying
constructors. -/
inductive Err where
  | validation (msg : String)
  | runtimeMismatch (target host : Runtime)
  | mkdirFailed (loc : String)
  | copyFailed
  | readFailed
  | compileFailed (c : Command)
  | locatePlugin (p : String)
  | external (msg : String)
deriving DecidableEq, Repr

/-- The build result (`build.Module`): artifact bytes, resolved mode and
metadata. -/
structure Module where
  mode : String
  data : String
  scn : Nat
  runtime : Runtime
  name : String
deriving DecidableEq, Repr

/-- Per-build workspace state (`builder.Snapshot`).  Only the fields the
embedded source reads or writes are modelled: the stored build mode, the
entry-point set (`AppendMain`), the accumulated module fragments, the
computed environment entries (`Env()`), and the workspace paths. -/
structure Snapshot where
  buildMode : String
  mains : List String
  mods : List String
  env : List String
  goDir : String
  basePluginURL : String
  pluginBuildPath : String
  pluginDestPath : String
  created : Nat
deriving DecidableEq, Repr

/-- A delegation registry entry: a named remote builder with a
runtime-matching predicate and a base address. -/
structure Delegation where
  name : String
  matchesRuntime : Runtime → Bool
  baseURL : String

/-- Builder configuration: host runtime and the delegation registry. -/
structure Config where
  runtime : Runtime
  delegations : List Delegation

/-- The filesystem as the set of paths that exist. -/
abbrev FS := List String

/-- A file encountered while unpacking the source bundle: parent
directory, file name, byte content, and whether reading it fails. -/
structure FileEntry where
  parent : String
  name : String
  content : String
  readFails : Bool
deriving DecidableEq, Repr

/-- Trace of externally visible calls a build performs: packing the
bundle, constructing the workspace, toolchain-cache writes and the
fetch-extract download, unpacking, dependency rewriting, searching the
delegation registry, probing and starting the remote builder, forwarding
a spec to the remote endpoint, compiling, and retrieving the artifact. -/
inductive Event where
  | packSource
  | newSnapshot
  | mkdirDir (loc : String)
  | fetchExtract (url : String)
  | unpackSource
  | replaceDeps
  | registryMatch (rt : Runtime)
  | dockerProbe (name : String)
  | dockerRun (name : String)
  | clientBuild (url : String) (spec : BuildSpec)
  | compile (c : Command)
  | downloadArtifact (p : String)
deriving DecidableEq, Repr

/-- Events that touch the delegation machinery (registry search, liveness
probe, container start, remote forward). -/
def Event.isDelegationEvent : Event → Bool
  | .registryMatch _ => true
  | .dockerProbe _ => true
  | .dockerRun _ => true
  | .clientBuild _ _ => true
  | _ => false

/-- Go's `path.Ext` scanned from the end of the name: the suffix starting
at the final dot, empty when there is no dot before a slash.  The first
argument is the name's characters in reverse order, the second the
already-collected suffix characters. -/
def pathExtAux : List Char → List Char → String
  | [], _ => ""
  | c :: rest, acc =>
    if c = '.' then String.mk ('.' :: acc)
    else if c = '/' then ""
    else pathExtAux rest (c :: acc)

/-- Go's `path.Ext`. -/
def pathExt (s : String) : String := pathExtAux s.data.reverse []

/-- Go's `path.Join` for the slash-free components the builder passes it:
concatenation with a slash separator, with empty components dropped. -/
def pathJoin (a b : String) : String :=
  if a = "" then b else if b = "" then a else a ++ "/" ++ b

/-- Whether `pre` is a prefix of `l`. -/
def listPrefixOf [DecidableEq α] : List α → List α → Bool
  | [], _ => true
  | _ :: _, [] => false
  | a :: as, b :: bs => a = b && listPrefixOf as bs

/-- Whether `needle` occurs contiguously inside `hay`. -/
def listInfixOf [DecidableEq α] (needle : List α) : List α → Bool
  | [] => listPrefixOf needle []
  | hay@(_ :: t) => listPrefixOf needle hay || listInfixOf needle t

/-- Go's `bytes.Contains` on string-modelled byte slices. -/
def bytesContains (hay needle : String) : Bool :=
  listInfixOf needle.data hay.data

/-- The reserved entry-point marker `mainFragment = []byte("package main")`. -/
def mainFragment : String := "package main"

/-- Function `appendEnv` from the source: append each explicit `key=value` pair of
the spec after the snapshot-provided entries. -/
def appendEnv (pairs : List (String × String)) (env : List String) : List String :=
  pairs.foldl (fun acc p => acc ++ [p.1 ++ "=" ++ p.2]) env

/-- Formatting of one environment pair, Go's `fmt.Sprintf("%v=%v", k, v)`. -/
def fmtEnvPair (p : String × String) : String := p.1 ++ "=" ++ p.2

/-- Split an environment entry at its first `=` into key and value. -/
def splitEnvEntry : List Char → List Char × List Char
  | [] => ([], [])
  | c :: rest =>
    if c = '=' then ([], rest)
    else
      let p := splitEnvEntry rest
      (c :: p.1, p.2)

/-- Value an environment list assigns to a key under the last-writer-wins
reading a child process applies to `[]string` environments: the value of
the last entry whose key part equals the requested key. -/
def envValue (key : List Char) (env : List String) : Option (List Char) :=
  match env.reverse.find? (fun e => (splitEnvEntry e.data).1 == key) with
  | some e => some (splitEnvEntry e.data).2
  | none => none

/-- The toolchain download address: the template
`https://dl.google.com/go/go%v.%v-%v.tar.gz` instantiated with version,
OS and architecture, then the first `://` collapsed to `:` and the
`/tar://` extraction-scheme suffix appended, as in `ensureGo`. -/
def goDownloadURL (version os arch : String) : String :=
  "https:dl.google.com/go/go" ++ version ++ "." ++ os ++ "-" ++ arch ++
    ".tar.gz/tar:" ++ "//"

/-- Oracle bundle for the external collaborators (file transfer, process
runner, network client, container runtime) and for repository code that
is outside the embedded source files (`build.Build.Init`,
`build.Build.Validate`, `build.Build.GetModeWithSpec`, `build.AsScn`,
`NewSnapshot`, `Snapshot.buildCmdArgs`, `Snapshot.replaceDependencies`,
`Service.runDocker`, the HTTP client).  Theorems quantify over an
arbitrary `Ext`, so they hold for every behaviour of these parts. -/
structure Ext where
  initSpec : BuildSpec → BuildSpec
  validate : BuildSpec → Option Err
  pack : BuildSpec → Except Err String
  getModeWithSpec : BuildSpec → String × String
  newSnapshot : String → String → GoBuild → Snapshot
  mkdirOk : String → Bool
  copyOk : String → Bool
  unpackFail : BuildSpec → Option Err
  bundleMods : BuildSpec → List String
  bundleFiles : BuildSpec → List FileEntry
  replaceDeps : Snapshot → String → Except Err String
  buildCmdArgs : Snapshot → BuildSpec → String × List String
  runCompile : Command → Option Err
  downloadArtifact : String → Except Err String
  isUp : String → Bool
  runDocker : String → Option Err
  remoteBuild : String → BuildSpec → Option Module × Option Err
  asScn : Nat → Nat

/-- Application of the option hooks `opt(buildSpec)` preceding `Init`. -/
def applyOpts (opts : List (BuildSpec → BuildSpec)) (s : BuildSpec) : BuildSpec :=
  opts.foldl (fun s o => o s) s

/-- Modelled from the spec: `Runtime.ValidateOsAndArch` compares the
requested runtime against the host runtime and reports a mismatch error
when they differ; its receiver only sees the two (OS, architecture)
pairs, so the forced-delegation flag is checked separately by `Build`. -/
def ValidateOsAndArch (host target : Runtime) : Option Err :=
  if target = host then none else some (Err.runtimeMismatch target host)

/-- Modelled from the spec: the delegation registry is searched for an
entry whose runtime-matching predicate accepts the requested runtime
(`cfg.delegations.Match`). -/
def delegationsMatch (ds : List Delegation) (rt : Runtime) : Option Delegation :=
  ds.find? (fun d => d.matchesRuntime rt)

/-- Modelled from the spec: `Snapshot.AppendMain` records a file path in
the snapshot's entry-point set. -/
def Snapshot.AppendMain (s : Snapshot) (p : String) : Snapshot :=
  { s with mains := s.mains ++ [p] }

/-- Modelled from the spec: a workspace containing an entry-point marker
builds as a standalone program rather than a plugin unless plugin mode
was explicitly requested; with no marker and no explicit request the
workspace stays a plugin build. -/
def Snapshot.inferredMode (pluginForced : Bool) (s : Snapshot) : String :=
  if pluginForced then "plugin"
  else if s.mains = [] then "plugin" else "program"

/-- Modelled from the spec: structural validation of a spec — the name
must be set and the runtime must be one of the finite set of supported
(OS, architecture) pairs.  Used to instantiate the `validate` oracle at
concrete inputs (`build.Build.Validate` is not among the embedded
sources). -/
def specValidate (supported : List Runtime) (s : BuildSpec) : Option Err :=
  if s.name = "" then some (Err.validation "name was empty")
  else if s.go.runtime ∈ supported then none
  else some (Err.validation "unsupported runtime")

/-- The tail of `Service.processSource`: scan the processed bytes for
the entry-point marker, record the joined path on a hit, and hand the
bytes back unchanged. -/
def scanMain (source parent name : String) (snapshot : Snapshot) :
    String × Snapshot :=
  if bytesContains source mainFragment then
    (source, snapshot.AppendMain (pathJoin parent name))
  else (source, snapshot)

/-- Function `Service.processSource`: read the file content (`readFails` models an
`io.ReadAll` failure), rewrite dependencies when `replace` is set, then
scan for the entry-point marker via `scanMain`.  The returned `FileInfo`
is the unchanged input in every branch of the source, so the model
returns only content and snapshot.  The trace records each
`replaceDependencies` call. -/
def Service.processSource (replaceDeps : String → Except Err String)
    (readFails : Bool) (reader parent name : String) (snapshot : Snapshot)
    (replace : Bool) : Except Err (String × Snapshot) × List Event :=
  if readFails then (Except.error Err.readFailed, [])
  else if replace then
    match replaceDeps reader with
    | Except.error e => (Except.error e, [Event.replaceDeps])
    | Except.ok source =>
      (Except.ok (scanMain source parent name snapshot), [Event.replaceDeps])
  else (Except.ok (scanMain reader parent name snapshot), [])

/-- The per-file callback `Service.Build` passes to `Source.Unpack`:
files with extension `.go`, `.mod` or `.sum` go through `processSource`
with `replace` set exactly when the build mode is `plugin`; every other
file is returned unchanged. -/
def Service.unpackHandler (replaceDeps : String → Except Err String)
    (buildMode : String) (f : FileEntry) (snapshot : Snapshot) :
    Except Err (String × Snapshot) × List Event :=
  let ext := pathExt f.name
  if ext = ".go" ∨ ext = ".mod" ∨ ext = ".sum" then
    Service.processSource replaceDeps f.readFails f.content f.parent f.name
      snapshot (buildMode == "plugin")
  else (Except.ok (f.content, snapshot), [])

/-- The iteration `Source.Unpack` performs over the bundle's files,
applying the per-file callback and stopping at the first error. -/
def runUnpack (ext : Ext) (buildMode : String) :
    List FileEntry → Snapshot → Except Err Snapshot × List Event
  | [], snapshot => (Except.ok snapshot, [])
  | f :: rest, snapshot =>
    match Service.unpackHandler (ext.replaceDeps snapshot) buildMode f snapshot with
    | (Except.error e, evs) => (Except.error e, evs)
    | (Except.ok (_, snapshot), evs) =>
      let r := runUnpack ext buildMode rest snapshot
      (r.1, evs ++ r.2)

/-- The whole `Source.Unpack` call: an archive-level failure aborts;
otherwise the module-descriptor callback appends the encountered
fragments (`AppendMod`) and every file runs through the per-file
callback. -/
def runUnpackAll (ext : Ext) (buildMode : String) (spec : BuildSpec)
    (snapshot : Snapshot) : Except Err Snapshot × List Event :=
  match ext.unpackFail spec with
  | some e => (Except.error e, [])
  | none =>
    runUnpack ext buildMode (ext.bundleFiles spec)
      { snapshot with mods := snapshot.mods ++ ext.bundleMods spec }

/-- The compiler invocation `Service.build` assembles: command and
arguments from `snapshot.buildCmdArgs`, working directory
`snapshot.PluginBuildPath`, environment `appendEnv(spec.Go.Env,
snapshot.Env())`. -/
def Service.buildCommand (ext : Ext) (snapshot : Snapshot)
    (spec : BuildSpec) : Command :=
  { cmd := (ext.buildCmdArgs snapshot spec).1
    args := (ext.buildCmdArgs snapshot spec).2
    dir := snapshot.pluginBuildPath
    env := appendEnv spec.go.env snapshot.env }

/-- Function `Service.build` (the lowercase compile step): run the assembled
command; a non-zero exit becomes a diagnostic error carrying the
command. -/
def Service.build (ext : Ext) (snapshot : Snapshot) (spec : BuildSpec) :
    Option Err × List Event :=
  let command := Service.buildCommand ext snapshot spec
  match ext.runCompile command with
  | some _ => (some (Err.compileFailed command), [Event.compile command])
  | none => (none, [Event.compile command])

/-- Function `Service.ensureGo`: look for the compiler binary at
`GoDir/go<version>/go`; on a hit return immediately; on a miss create
the version directory and fetch-and-extract the toolchain archive.
Modelled from the spec for the transfer layer's effect: a successful
combined fetch-and-extract leaves the compiler binary at the `go`
subpath of the destination directory. -/
def Service.ensureGo (cfg : Config) (ext : Ext) (fs : FS) (goDir version : String) :
    Option Err × FS × List Event :=
  let verLocation := pathJoin goDir ("go" ++ version)
  if pathJoin verLocation "go" ∈ fs then (none, fs, [])
  else if ext.mkdirOk verLocation then
    let fs1 := verLocation :: fs
    let url := goDownloadURL version cfg.runtime.os cfg.runtime.arch
    if ext.copyOk url then
      (none, pathJoin verLocation "go" :: fs1,
        [Event.mkdirDir verLocation, Event.fetchExtract url])
    else
      (some Err.copyFailed, fs1,
        [Event.mkdirDir verLocation, Event.fetchExtract url])
  else
    (some (Err.mkdirFailed verLocation), fs, [Event.mkdirDir verLocation])

/-- Function `Service.ensureDocker`: probe the delegated builder; when it is not
up, attempt to bring it up via `runDocker`. -/
def Service.ensureDocker (ext : Ext) (d : Delegation) : Option Err × List Event :=
  if ext.isUp d.baseURL then (none, [Event.dockerProbe d.name])
  else
    match ext.runDocker d.name with
    | some e => (some e, [Event.dockerProbe d.name, Event.dockerRun d.name])
    | none => (none, [Event.dockerProbe d.name, Event.dockerRun d.name])

/-- Function `Service.delegateBuildOrFail`: clear the forced-delegation flag on
the spec, search the registry; with no match return the incoming error,
otherwise ensure the delegated builder is reachable and forward the
(cleared) spec to its endpoint, returning the remote result unmodified. -/
def Service.delegateBuildOrFail (cfg : Config) (ext : Ext) (spec0 : BuildSpec)
    (err : Option Err) : (Option Module × Option Err) × List Event :=
  let spec := { spec0 with go := { spec0.go with ensureTheSameOs := false } }
  match delegationsMatch cfg.delegations spec.go.runtime with
  | none => ((none, err), [Event.registryMatch spec.go.runtime])
  | some d =>
    match Service.ensureDocker ext d with
    | (some e, evs) => ((none, some e), Event.registryMatch spec.go.runtime :: evs)
    | (none, evs) =>
      (ext.remoteBuild d.baseURL spec,
        Event.registryMatch spec.go.runtime :: evs
          ++ [Event.clientBuild d.baseURL spec])

/-- The packing step at the head of the local-build arm: when the bundle
is not already raw bytes, `Source.Pack` is invoked. -/
def packIfNeeded (ext : Ext) (spec : BuildSpec) : Except Err BuildSpec × List Event :=
  if spec.sourceData.isEmpty then
    match ext.pack spec with
    | Except.error e => (Except.error e, [Event.packSource])
    | Except.ok d => (Except.ok { spec with sourceData := d }, [Event.packSource])
  else (Except.ok spec, [])

/-- The local-build arm of `Service.Build`: pack the bundle when it is
not already raw bytes, derive mode and package spec, construct the
snapshot, ensure the toolchain, unpack and rewrite the source, compile,
and retrieve the artifact, assembling the resulting module. -/
def Service.buildLocally (cfg : Config) (ext : Ext) (fs : FS) (spec : BuildSpec) :
    (Option Module × Option Err) × FS × List Event :=
  match packIfNeeded ext spec with
  | (Except.error e, evs) => ((none, some e), fs, evs)
  | (Except.ok spec, evs1) =>
    let ms := ext.getModeWithSpec spec
    let snapshot := ext.newSnapshot ms.1 ms.2 spec.go
    let evs2 := evs1 ++ [Event.newSnapshot]
    match Service.ensureGo cfg ext fs snapshot.goDir spec.go.version with
    | (some e, fs1, evs3) => ((none, some e), fs1, evs2 ++ evs3)
    | (none, fs1, evs3) =>
      let evs4 := evs2 ++ evs3 ++ [Event.unpackSource]
      match runUnpackAll ext ms.1 spec snapshot with
      | (Except.error e, evs5) => ((none, some e), fs1, evs4 ++ evs5)
      | (Except.ok snap1, evs5) =>
        let evs6 := evs4 ++ evs5
        match Service.build ext snap1 spec with
        | (some e, evs7) => ((none, some e), fs1, evs6 ++ evs7)
        | (none, evs7) =>
          match ext.downloadArtifact snap1.pluginDestPath with
          | Except.error _ =>
            ((none, some (Err.locatePlugin snap1.pluginDestPath)), fs1,
              evs6 ++ evs7 ++ [Event.downloadArtifact snap1.pluginDestPath])
          | Except.ok d =>
            ((some { mode := snap1.buildMode, data := d,
                     scn := ext.asScn snap1.created,
                     runtime := spec.go.runtime, name := spec.name }, none), fs1,
              evs6 ++ evs7 ++ [Event.downloadArtifact snap1.pluginDestPath])

/-- Function `Service.Build`: apply option hooks and `Init`, validate, consult the
runtime matcher (delegating on a mismatch or on the forced-delegation
flag), otherwise run the local build.  The pair of options mirrors Go's
`(*build.Module, error)` return, both components of which may be nil. -/
def Service.Build (cfg : Config) (ext : Ext) (fs : FS)
    (opts : List (BuildSpec → BuildSpec)) (spec0 : BuildSpec) :
    (Option Module × Option Err) × FS × List Event :=
  let spec := ext.initSpec (applyOpts opts spec0)
  match ext.validate spec with
  | some e => ((none, some e), fs, [])
  | none =>
    let vErr := ValidateOsAndArch cfg.runtime spec.go.runtime
    if vErr.isSome || spec.go.ensureTheSameOs then
      let r := Service.delegateBuildOrFail cfg ext spec vErr
      (r.1, fs, r.2)
    else
      Service.buildLocally cfg ext fs spec

/-! Concrete fixtures used to evaluate the model at specific inputs. -/

/-- The linux/amd64 host runtime fixture. -/
def rtLinux : Runtime := { os := "linux", arch := "amd64" }

/-- A darwin/arm64 target runtime fixture. -/
def rtDarwin : Runtime := { os := "darwin", arch := "arm64" }

/-- A snapshot fixture as a `newSnapshot` oracle would produce it. -/
def snap0 (mode : String) : Snapshot :=
  { buildMode := mode, mains := [], mods := [], env := ["GOOS=linux", "CGO_ENABLED=1"],
    goDir := "/cache/go", basePluginURL := "/work/src", pluginBuildPath := "/work/bld",
    pluginDestPath := "/work/bld/out.so", created := 7 }

/-- An oracle bundle where every external step succeeds. -/
def extOk : Ext :=
  { initSpec := id
    validate := specValidate [rtLinux, rtDarwin]
    pack := fun _ => Except.ok "packedbytes"
    getModeWithSpec := fun _ => ("plugin", "plugin/main")
    newSnapshot := fun m _ _ => snap0 m
    mkdirOk := fun _ => true
    copyOk := fun _ => true
    unpackFail := fun _ => none
    bundleMods := fun _ => []
    bundleFiles := fun _ => []
    replaceDeps := fun _ s => Except.ok s
    buildCmdArgs := fun _ _ => ("go", ["build"])
    runCompile := fun _ => none
    downloadArtifact := fun _ => Except.ok "BINARY"
    isUp := fun _ => true
    runDocker := fun _ => none
    remoteBuild := fun _ s =>
      (some { mode := "plugin", data := "REMOTE", scn := 3,
              runtime := s.go.runtime, name := s.name }, none)
    asScn := id }

/-- Host configuration with an empty delegation registry. -/
def cfgNoDelegations : Config := { runtime := rtLinux, delegations := [] }

/-- Host configuration with one delegation accepting every runtime. -/
def cfgOneDelegation : Config :=
  { runtime := rtLinux
    delegations := [{ name := "d0", matchesRuntime := fun _ => true,
                      baseURL := "http:remote:8080" }] }

/-- A valid spec targeting the host runtime with the forced-delegation
flag set. -/
def specForced : BuildSpec :=
  { name := "p"
    go := { runtime := rtLinux, version := "1.21", ensureTheSameOs := true, env := [] }
    sourceData := "srcbundle" }

/-- A valid spec targeting the host runtime, flag clear. -/
def specLocal : BuildSpec :=
  { name := "p"
    go := { runtime := rtLinux, version := "1.21", ensureTheSameOs := false,
            env := [("GOOS", "darwin")] }
    sourceData := "srcbundle" }

/-- A valid spec targeting a runtime that differs from the host, flag
clear. -/
def specMismatch : BuildSpec :=
  { name := "p"
    go := { runtime := rtDarwin, version := "1.21", ensureTheSameOs := false, env := [] }
    sourceData := "srcbundle" }

/-! Shared helper lemmas. -/

/-- The loop in `appendEnv` appends the formatted pairs after the given
environment. -/
theorem appendEnv_eq (ps : List (String × String)) (env : List String) :
    appendEnv ps env = env ++ ps.map fmtEnvPair := by
  induction ps generalizing env with
  | nil => simp [appendEnv]
  | cons p rest ih =>
    have h : appendEnv (p :: rest) env = appendEnv rest (env ++ [fmtEnvPair p]) := rfl
    rw [h, ih]
    simp

/-- Splitting a well-formed entry recovers its key and value. -/
theorem splitEnvEntry_append (k v : List Char) (hk : '=' ∉ k) :
    splitEnvEntry (k ++ '=' :: v) = (k, v) := by
  induction k with
  | nil => simp [splitEnvEntry]
  | cons c rest ih =>
    have hc : ¬ c = '=' := by
      intro h
      exact hk (h ▸ List.mem_cons_self c rest)
    have hr : '=' ∉ rest := fun h => hk (List.mem_cons_of_mem _ h)
    simp [splitEnvEntry, hc, ih hr]

/-- Two predicates that agree on a list find the same element. -/
theorem find_congr {α : Type} (p q : α → Bool) (l : List α)
    (h : ∀ x ∈ l, p x = q x) : l.find? p = l.find? q := by
  induction l with
  | nil => rfl
  | cons a t ih =>
    have ha := h a (List.mem_cons_self a t)
    simp only [List.find?]
    rw [ha]
    cases q a with
    | true => rfl
    | false => exact ih (fun x hx => h x (List.mem_cons_of_mem a hx))

/-- Clearing an already-clear forced-delegation flag is the identity. -/
theorem clearFlag_eq_self (s : BuildSpec) (h : s.go.ensureTheSameOs = false) :
    { s with go := { s.go with ensureTheSameOs := false } } = s := by
  cases s with
  | mk n g d => cases g; simp_all

/-- String equality and character-list equality agree as booleans. -/
theorem beq_data_eq_beq (a b : String) : (a.data == b.data) = (a == b) := by
  by_cases hab : a = b
  · subst hab; simp
  · have hd : a.data ≠ b.data := fun hd => hab (by
      cases a; cases b; simp_all)
    simp [hab, hd]

/-- Function `processSource` only ever emits dependency-rewrite events. -/
theorem processSource_events (rd : String → Except Err String) (readFails : Bool)
    (reader parent name : String) (snapshot : Snapshot) (replace : Bool) :
    ∀ e ∈ (Service.processSource rd readFails reader parent name snapshot replace).2,
      e = Event.replaceDeps := by
  intro e he
  unfold Service.processSource at he
  split at he
  · simp at he
  · split at he
    · split at he <;> simp_all
    · simp at he

/-- The per-file callback only ever emits dependency-rewrite events. -/
theorem unpackHandler_events (rd : String → Except Err String) (buildMode : String)
    (f : FileEntry) (snapshot : Snapshot) :
    ∀ e ∈ (Service.unpackHandler rd buildMode f snapshot).2,
      e = Event.replaceDeps := by
  intro e he
  unfold Service.unpackHandler at he
  simp only [] at he
  split at he
  · exact processSource_events _ _ _ _ _ _ _ e he
  · simp at he

/-- The unpack iteration only ever emits dependency-rewrite events. -/
theorem runUnpack_events (ext : Ext) (buildMode : String) (files : List FileEntry)
    (snapshot : Snapshot) :
    ∀ e ∈ (runUnpack ext buildMode files snapshot).2, e = Event.replaceDeps := by
  induction files generalizing snapshot with
  | nil => intro e he; simp [runUnpack] at he
  | cons f rest ih =>
    intro e he
    unfold runUnpack at he
    split at he
    · next heq =>
      have := unpackHandler_events (ext.replaceDeps snapshot) buildMode f snapshot
      rw [heq] at this
      exact this e he
    · next s snap1 evs heq =>
      simp only [List.mem_append] at he
      rcases he with he | he
      · have := unpackHandler_events (ext.replaceDeps snapshot) buildMode f snapshot
        rw [heq] at this
        exact this e he
      · exact ih snap1 e he

/-- The whole unpack step only ever emits dependency-rewrite events. -/
theorem runUnpackAll_events (ext : Ext) (buildMode : String) (spec : BuildSpec)
    (snapshot : Snapshot) :
    ∀ e ∈ (runUnpackAll ext buildMode spec snapshot).2, e = Event.replaceDeps := by
  intro e he
  unfold runUnpackAll at he
  split at he
  · simp at he
  · exact runUnpack_events _ _ _ _ e he

/-- Function `ensureGo` only touches the toolchain cache: its trace holds only
directory-creation and fetch-extract events. -/
theorem ensureGo_events (cfg : Config) (ext : Ext) (fs : FS) (goDir version : String) :
    ∀ e ∈ (Service.ensureGo cfg ext fs goDir version).2.2,
      (∃ loc, e = Event.mkdirDir loc) ∨ ∃ url, e = Event.fetchExtract url := by
  intro e he
  simp only [Service.ensureGo] at he
  split at he
  · simp at he
  · split at he
    · split at he <;> simp_all <;> rcases he with he | he <;> simp [he]
    · simp_all

/-- The compile step emits exactly one compiler invocation event. -/
theorem build_events (ext : Ext) (snapshot : Snapshot) (spec : BuildSpec) :
    ∀ e ∈ (Service.build ext snapshot spec).2,
      e = Event.compile (Service.buildCommand ext snapshot spec) := by
  intro e he
  unfold Service.build at he
  simp only [] at he
  split at he <;> simp_all

/-- The packing step emits at most one pack event. -/
theorem packIfNeeded_events (ext : Ext) (spec : BuildSpec) :
    ∀ e ∈ (packIfNeeded ext spec).2, e = Event.packSource := by
  intro e he
  unfold packIfNeeded at he
  split at he
  · split at he <;> simp_all
  · simp at he

/-- Function `ensureDocker` emits only probe and container-start events. -/
theorem ensureDocker_events (ext : Ext) (d : Delegation) :
    ∀ e ∈ (Service.ensureDocker ext d).2,
      e = Event.dockerProbe d.name ∨ e = Event.dockerRun d.name := by
  intro e he
  unfold Service.ensureDocker at he
  split at he
  · simp at he; simp [he]
  · split at he <;> simp_all

/-- Predicate: a trace holds no delegation-machinery events. -/
def NoDeleg (l : List Event) : Prop := ∀ e ∈ l, e.isDelegationEvent = false

/-- Concatenation preserves delegation-freeness. -/
theorem noDeleg_append {l1 l2 : List Event} (h1 : NoDeleg l1) (h2 : NoDeleg l2) :
    NoDeleg (l1 ++ l2) := by
  intro e he
  rcases List.mem_append.mp he with h | h
  · exact h1 e h
  · exact h2 e h

/-- The empty trace is delegation-free. -/
theorem noDeleg_nil : NoDeleg [] := by
  intro e he
  simp at he

/-- A singleton trace of a non-delegation event is delegation-free. -/
theorem noDeleg_singleton (ev : Event) (h : ev.isDelegationEvent = false) :
    NoDeleg [ev] := by
  intro e he
  simp at he
  simp [he, h]

/-- A trace whose members all equal one non-delegation event is
delegation-free. -/
theorem noDeleg_of_all_eq (l : List Event) (ev : Event)
    (h : ∀ e ∈ l, e = ev) (hev : ev.isDelegationEvent = false) : NoDeleg l := by
  intro e he
  rw [h e he]
  exact hev

/-- The local-build arm never touches the delegation machinery. -/
theorem buildLocally_no_delegation (cfg : Config) (ext : Ext) (fs : FS)
    (spec : BuildSpec) :
    NoDeleg (Service.buildLocally cfg ext fs spec).2.2 := by
  unfold Service.buildLocally
  split
  · next e1 evs heq =>
    have hpack := packIfNeeded_events ext spec
    rw [heq] at hpack
    exact noDeleg_of_all_eq evs Event.packSource hpack rfl
  · next spec1 evs1 heq =>
    have hpack := packIfNeeded_events ext spec
    rw [heq] at hpack
    have hpack1 : NoDeleg evs1 :=
      noDeleg_of_all_eq evs1 Event.packSource hpack rfl
    have hgo := ensureGo_events cfg ext fs
      ((ext.newSnapshot (ext.getModeWithSpec spec1).1 (ext.getModeWithSpec spec1).2
        spec1.go).goDir) spec1.go.version
    have hun := runUnpackAll_events ext (ext.getModeWithSpec spec1).1 spec1
      (ext.newSnapshot (ext.getModeWithSpec spec1).1 (ext.getModeWithSpec spec1).2
        spec1.go)
    simp only []
    split
    · next e2 fs1 evs3 heq2 =>
      rw [heq2] at hgo
      have hgo1 : NoDeleg evs3 := by
        intro e he
        rcases hgo e he with ⟨loc, h⟩ | ⟨url, h⟩ <;> simp [h, Event.isDelegationEvent]
      exact noDeleg_append (noDeleg_append hpack1 (noDeleg_singleton _ rfl)) hgo1
    · next fs1 evs3 heq2 =>
      rw [heq2] at hgo
      have hgo1 : NoDeleg evs3 := by
        intro e he
        rcases hgo e he with ⟨loc, h⟩ | ⟨url, h⟩ <;> simp [h, Event.isDelegationEvent]
      split
      · next e3 evs5 heq3 =>
        rw [heq3] at hun
        exact noDeleg_append
          (noDeleg_append
            (noDeleg_append (noDeleg_append hpack1 (noDeleg_singleton _ rfl)) hgo1)
            (noDeleg_singleton _ rfl))
          (noDeleg_of_all_eq evs5 Event.replaceDeps hun rfl)
      · next snap1 evs5 heq3 =>
        rw [heq3] at hun
        have hun1 : NoDeleg evs5 :=
          noDeleg_of_all_eq evs5 Event.replaceDeps hun rfl
        have hb := build_events ext snap1 spec1
        have hbase : NoDeleg ((evs1 ++ [Event.newSnapshot] ++ evs3
            ++ [Event.unpackSource]) ++ evs5) :=
          noDeleg_append
            (noDeleg_append
              (noDeleg_append (noDeleg_append hpack1 (noDeleg_singleton _ rfl)) hgo1)
              (noDeleg_singleton _ rfl))
            hun1
        split
        · next e4 evs7 heq4 =>
          rw [heq4] at hb
          exact noDeleg_append hbase
            (noDeleg_of_all_eq evs7 _ hb rfl)
        · next evs7 heq4 =>
          rw [heq4] at hb
          have hb1 : NoDeleg evs7 := noDeleg_of_all_eq evs7 _ hb rfl
          split <;>
            exact noDeleg_append (noDeleg_append hbase hb1)
              (noDeleg_singleton _ rfl)

/-! Claim theorems. -/

/-- C9: for every spec that fails structural validation, `Service.Build`
returns the validation error terminally and with no side effects: the
filesystem is unchanged and the trace is empty, so no source packing, no
snapshot creation, no toolchain install, no delegation and no compiler
invocation occur. -/
theorem build_validation_failure_no_side_effects
    (cfg : Config) (ext : Ext) (fs : FS) (opts : List (BuildSpec → BuildSpec))
    (spec0 : BuildSpec) (e : Err)
    (h : ext.validate (ext.initSpec (applyOpts opts spec0)) = some e) :
    Service.Build cfg ext fs opts spec0 = ((none, some e), fs, []) := by
  unfold Service.Build
  simp only []
  rw [h]

/-- Witness for C9 at a concrete spec with an empty name. -/
theorem build_validation_failure_no_side_effects_witness :
    Service.Build cfgNoDelegations extOk []
      [] { specLocal with name := "" }
      = ((none, some (Err.validation "name was empty")), [], []) :=
  build_validation_failure_no_side_effects cfgNoDelegations extOk [] []
    { specLocal with name := "" } (Err.validation "name was empty") (by decide)

/-- C4: for a valid spec whose runtime differs from the host, with the
forced-delegation flag clear and no matching delegation, `Service.Build`
returns exactly the runtime-mismatch error; the filesystem is unchanged
and the trace holds only the registry search, so no snapshot
construction, no toolchain install and no compiler invocation happen. -/
theorem build_mismatch_no_delegation_terminal_error
    (cfg : Config) (ext : Ext) (fs : FS) (opts : List (BuildSpec → BuildSpec))
    (spec0 s : BuildSpec)
    (hs : ext.initSpec (applyOpts opts spec0) = s)
    (hval : ext.validate s = none)
    (hflag : s.go.ensureTheSameOs = false)
    (hrt : s.go.runtime ≠ cfg.runtime)
    (hmatch : delegationsMatch cfg.delegations s.go.runtime = none) :
    Service.Build cfg ext fs opts spec0
      = ((none, some (Err.runtimeMismatch s.go.runtime cfg.runtime)), fs,
         [Event.registryMatch s.go.runtime]) := by
  unfold Service.Build
  simp only []
  rw [hs, hval]
  have hv : ValidateOsAndArch cfg.runtime s.go.runtime
      = some (Err.runtimeMismatch s.go.runtime cfg.runtime) := by
    unfold ValidateOsAndArch
    rw [if_neg hrt]
  rw [hv]
  simp only [Option.isSome_some, Bool.true_or, if_true]
  unfold Service.delegateBuildOrFail
  simp only []
  rw [clearFlag_eq_self s hflag, hmatch]

/-- Witness for C4 at a darwin/arm64 spec on a linux/amd64 host with an
empty registry. -/
theorem build_mismatch_no_delegation_terminal_error_witness :
    Service.Build cfgNoDelegations extOk [] [] specMismatch
      = ((none, some (Err.runtimeMismatch rtDarwin rtLinux)), [],
         [Event.registryMatch rtDarwin]) :=
  build_mismatch_no_delegation_terminal_error cfgNoDelegations extOk [] []
    specMismatch specMismatch rfl (by decide) rfl (by decide) rfl

/-- C2 (refuting evaluation): on a valid spec whose runtime equals the
host runtime, whose forced-delegation flag is set, and with no matching
delegation registered, `Service.Build` returns a nil module together
with a nil error — the partial-success state the claim rules out. -/
theorem build_returns_nil_module_and_nil_error :
    Service.Build cfgNoDelegations extOk [] [] specForced
      = ((none, none), [], [Event.registryMatch rtLinux]) := by
  rfl

/-- C5: the toolchain ensure operation is idempotent.  If the compiler
binary already exists at `goDir/go<version>/go` the call returns success
with the filesystem untouched and an empty trace (no directory creation,
no fetch-extract); and after any successful call, a second call is such
a no-op read on the resulting filesystem. -/
theorem ensureGo_idempotent (cfg : Config) (ext : Ext) (fs : FS)
    (goDir version : String) :
    (pathJoin (pathJoin goDir ("go" ++ version)) "go" ∈ fs →
       Service.ensureGo cfg ext fs goDir version = (none, fs, []))
    ∧ (∀ fs1 evs1, Service.ensureGo cfg ext fs goDir version = (none, fs1, evs1) →
       Service.ensureGo cfg ext fs1 goDir version = (none, fs1, [])) := by
  constructor
  · intro h
    unfold Service.ensureGo
    simp only []
    rw [if_pos h]
  · intro fs1 evs1 h
    unfold Service.ensureGo at h ⊢
    simp only [] at h ⊢
    by_cases hmem : pathJoin (pathJoin goDir ("go" ++ version)) "go" ∈ fs
    · rw [if_pos hmem] at h
      have hfs : fs1 = fs := by
        injection h with h1 h2
        injection h2 with h3 h4
        exact h3.symm
      rw [hfs]
      rw [if_pos hmem]
    · rw [if_neg hmem] at h
      by_cases hmk : ext.mkdirOk (pathJoin goDir ("go" ++ version)) = true
      · rw [if_pos hmk] at h
        by_cases hcp :
            ext.copyOk (goDownloadURL version cfg.runtime.os cfg.runtime.arch) = true
        · rw [if_pos hcp] at h
          have hfs : fs1 = pathJoin (pathJoin goDir ("go" ++ version)) "go"
              :: pathJoin goDir ("go" ++ version) :: fs := by
            injection h with h1 h2
            injection h2 with h3 h4
            exact h3.symm
          rw [hfs]
          rw [if_pos (List.mem_cons_self _ _)]
        · rw [if_neg hcp] at h
          injection h with h1 h2
          exact absurd h1 (by simp)
      · rw [if_neg hmk] at h
        injection h with h1 h2
        exact absurd h1 (by simp)

/-- Witness for C5: a hit-path call and a miss-then-hit sequence at
concrete inputs. -/
theorem ensureGo_idempotent_witness :
    (Service.ensureGo cfgNoDelegations extOk ["/cache/go/go1.21/go"]
        "/cache/go" "1.21" = (none, ["/cache/go/go1.21/go"], []))
    ∧ (Service.ensureGo cfgNoDelegations extOk
        ["/cache/go/go1.21/go", "/cache/go/go1.21"] "/cache/go" "1.21"
        = (none, ["/cache/go/go1.21/go", "/cache/go/go1.21"], [])) :=
  ⟨(ensureGo_idempotent cfgNoDelegations extOk ["/cache/go/go1.21/go"]
      "/cache/go" "1.21").1 (by decide),
   (ensureGo_idempotent cfgNoDelegations extOk [] "/cache/go" "1.21").2
      ["/cache/go/go1.21/go", "/cache/go/go1.21"]
      [Event.mkdirDir "/cache/go/go1.21",
       Event.fetchExtract "https:dl.google.com/go/go1.21.linux-amd64.tar.gz/tar://"]
      (by decide)⟩

/-- C10: a file whose extension is not `.go`, `.mod` or `.sum` passes
through the per-file callback unchanged: the callback returns the
original reader content byte-identically, leaves the snapshot (and so
the entry-point set) untouched, and emits no events. -/
theorem unpackHandler_other_extensions_unchanged
    (rd : String → Except Err String) (buildMode : String) (f : FileEntry)
    (snapshot : Snapshot)
    (h1 : pathExt f.name ≠ ".go") (h2 : pathExt f.name ≠ ".mod")
    (h3 : pathExt f.name ≠ ".sum") :
    Service.unpackHandler rd buildMode f snapshot
      = (Except.ok (f.content, snapshot), []) := by
  unfold Service.unpackHandler
  simp only []
  rw [if_neg]
  push_neg
  exact ⟨h1, h2, h3⟩

/-- Witness for C10: a markdown file containing the entry-point marker
is staged unchanged and its path is not recorded. -/
theorem unpackHandler_other_extensions_unchanged_witness :
    Service.unpackHandler (fun s => Except.ok s) "plugin"
      { parent := "pkg", name := "readme.md", content := "package main",
        readFails := false } (snap0 "plugin")
      = (Except.ok ("package main", snap0 "plugin"), []) :=
  unpackHandler_other_extensions_unchanged (fun s => Except.ok s) "plugin"
    { parent := "pkg", name := "readme.md", content := "package main",
      readFails := false } (snap0 "plugin") (by decide) (by decide) (by decide)

/-- A Go source file fixture containing the entry-point marker. -/
def fileGoMain : FileEntry :=
  { parent := "pkg", name := "main.go", content := "package main",
    readFails := false }

/-- When the processed content of a scanned file contains the marker, the
snapshot records the joined path. -/
theorem scanMain_main (s parent name : String) (snapshot : Snapshot)
    (source : String) (snap1 : Snapshot)
    (h : scanMain s parent name snapshot = (source, snap1))
    (hmain : bytesContains source mainFragment = true) :
    snap1 = snapshot.AppendMain (pathJoin parent name) := by
  unfold scanMain at h
  by_cases hc : bytesContains s mainFragment = true
  · rw [if_pos hc] at h
    injection h with h1 h2
    exact h2.symm
  · rw [if_neg hc] at h
    injection h with h1 h2
    subst h1
    exact absurd hmain hc

/-- A successful `processSource` whose result contains the marker has
appended the file's joined path to the entry-point set. -/
theorem processSource_ok (rd : String → Except Err String) (readFails : Bool)
    (reader parent name : String) (snapshot : Snapshot) (replace : Bool)
    (source : String) (snap1 : Snapshot)
    (h : (Service.processSource rd readFails reader parent name snapshot replace).1
      = Except.ok (source, snap1))
    (hmain : bytesContains source mainFragment = true) :
    snap1 = snapshot.AppendMain (pathJoin parent name) := by
  unfold Service.processSource at h
  cases hrf : readFails with
  | true => rw [hrf] at h; simp at h
  | false =>
    rw [hrf] at h
    simp only [Bool.false_eq_true, if_false] at h
    by_cases hr : replace = true
    · rw [if_pos hr] at h
      cases hrc : rd reader with
      | error e => rw [hrc] at h; simp at h
      | ok s =>
        rw [hrc] at h
        injection h with h2
        exact scanMain_main s parent name snapshot source snap1 h2 hmain
    · rw [if_neg hr] at h
      injection h with h2
      exact scanMain_main reader parent name snapshot source snap1 h2 hmain

/-- C6: a processed source, descriptor or checksum file whose (possibly
rewritten) content contains the entry-point marker has its joined path
recorded in the snapshot's entry-point set, and the inferred build mode
is `program` unless plugin mode was explicitly forced (in which case it
stays `plugin`). -/
theorem processSource_records_entry_point
    (rd : String → Except Err String) (buildMode : String) (f : FileEntry)
    (snapshot snap1 : Snapshot) (source : String)
    (hext : pathExt f.name = ".go" ∨ pathExt f.name = ".mod"
      ∨ pathExt f.name = ".sum")
    (h : (Service.unpackHandler rd buildMode f snapshot).1
      = Except.ok (source, snap1))
    (hmain : bytesContains source mainFragment = true) :
    pathJoin f.parent f.name ∈ snap1.mains
    ∧ Snapshot.inferredMode false snap1 = "program"
    ∧ Snapshot.inferredMode true snap1 = "plugin" := by
  unfold Service.unpackHandler at h
  simp only [] at h
  rw [if_pos hext] at h
  have hsnap := processSource_ok rd f.readFails f.content f.parent f.name
    snapshot (buildMode == "plugin") source snap1 h hmain
  subst hsnap
  refine ⟨?_, ?_, ?_⟩
  · simp [Snapshot.AppendMain]
  · simp [Snapshot.inferredMode, Snapshot.AppendMain]
  · rfl

/-- Witness for C6: a `.go` file whose content is the marker itself. -/
theorem processSource_records_entry_point_witness :
    pathJoin "pkg" "main.go"
      ∈ ((snap0 "exec").AppendMain (pathJoin "pkg" "main.go")).mains
    ∧ Snapshot.inferredMode false
        ((snap0 "exec").AppendMain (pathJoin "pkg" "main.go")) = "program"
    ∧ Snapshot.inferredMode true
        ((snap0 "exec").AppendMain (pathJoin "pkg" "main.go")) = "plugin" :=
  processSource_records_entry_point (fun s => Except.ok s) "exec" fileGoMain
    (snap0 "exec") ((snap0 "exec").AppendMain (pathJoin "pkg" "main.go"))
    "package main" (by decide) (by rfl) (by decide)

/-- C7: the dependency-rewrite step runs exactly on files with extension
`.go`, `.mod` or `.sum` built in plugin mode; in any other build mode
such files are still read and scanned (via `scanMain`) but their content
is handed on unmodified. -/
theorem rewrite_iff_source_ext_and_plugin_mode
    (rd : String → Except Err String) (buildMode : String) (f : FileEntry)
    (snapshot : Snapshot) (hrd : f.readFails = false) :
    (Event.replaceDeps ∈ (Service.unpackHandler rd buildMode f snapshot).2
       ↔ ((pathExt f.name = ".go" ∨ pathExt f.name = ".mod"
            ∨ pathExt f.name = ".sum") ∧ buildMode = "plugin"))
    ∧ ((pathExt f.name = ".go" ∨ pathExt f.name = ".mod"
          ∨ pathExt f.name = ".sum") →
        buildMode ≠ "plugin" →
        Service.unpackHandler rd buildMode f snapshot
          = (Except.ok (scanMain f.content f.parent f.name snapshot), []))
    ∧ (∀ s p n sn, (scanMain s p n sn).1 = s) := by
  refine ⟨?_, ?_, ?_⟩
  · unfold Service.unpackHandler
    simp only []
    by_cases hext : pathExt f.name = ".go" ∨ pathExt f.name = ".mod"
        ∨ pathExt f.name = ".sum"
    · rw [if_pos hext]
      unfold Service.processSource
      rw [hrd]
      by_cases hb : buildMode = "plugin"
      · have hb2 : (buildMode == "plugin") = true := beq_iff_eq.mpr hb
        rw [hb2]
        cases hrc : rd f.content <;> simp [hrc, hext, hb]
      · have hb2 : (buildMode == "plugin") = false := by
          rw [beq_eq_false_iff_ne]
          exact hb
        rw [hb2]
        simp [hext, hb]
    · rw [if_neg hext]
      simp [hext]
  · intro hext hb
    have hb2 : (buildMode == "plugin") = false := by
      rw [beq_eq_false_iff_ne]
      exact hb
    unfold Service.unpackHandler
    simp only []
    rw [if_pos hext]
    unfold Service.processSource
    rw [hrd, hb2]
    simp
  · intro s p n sn
    unfold scanMain
    split <;> rfl

/-- Witness for C7: in plugin mode a `.go` file triggers the rewrite
step; in a non-plugin mode the same file passes through unrewritten. -/
theorem rewrite_iff_source_ext_and_plugin_mode_witness :
    Event.replaceDeps ∈ (Service.unpackHandler (fun s => Except.ok s) "plugin"
      fileGoMain (snap0 "plugin")).2
    ∧ Service.unpackHandler (fun s => Except.ok s) "exec" fileGoMain
        (snap0 "exec")
      = (Except.ok (scanMain "package main" "pkg" "main.go" (snap0 "exec")), []) :=
  ⟨(rewrite_iff_source_ext_and_plugin_mode (fun s => Except.ok s) "plugin"
      fileGoMain (snap0 "plugin") rfl).1.mpr ⟨by decide, rfl⟩,
   (rewrite_iff_source_ext_and_plugin_mode (fun s => Except.ok s) "exec"
      fileGoMain (snap0 "exec") rfl).2.1 (by decide) (by decide)⟩

/-- Formatted environment entries split back into their key and value. -/
theorem fmtEnvPair_data (p : String × String) :
    (fmtEnvPair p).data = p.1.data ++ '=' :: p.2.data := by
  show (p.1 ++ "=" ++ p.2).data = _
  rw [String.data_append, String.data_append]
  simp

/-- C8: the compiler child-process environment is the snapshot's computed
entries followed by the spec's explicit pairs appended after them; every
entry of both sources appears in the final list, and under the
last-writer-wins reading a key set by the spec resolves to the spec's
value even when a snapshot entry uses the same key. -/
theorem build_command_env_append_precedence
    (ext : Ext) (snapshot : Snapshot) (spec : BuildSpec) :
    (Service.buildCommand ext snapshot spec).env
        = snapshot.env ++ spec.go.env.map fmtEnvPair
    ∧ (∀ e ∈ snapshot.env, e ∈ (Service.buildCommand ext snapshot spec).env)
    ∧ (∀ p ∈ spec.go.env, fmtEnvPair p ∈ (Service.buildCommand ext snapshot spec).env)
    ∧ (∀ k v, (∀ p ∈ spec.go.env, '=' ∉ p.1.data) →
        spec.go.env.reverse.find? (fun p => p.1 == k) = some (k, v) →
        envValue k.data (Service.buildCommand ext snapshot spec).env
          = some v.data) := by
  have henv : (Service.buildCommand ext snapshot spec).env
      = snapshot.env ++ spec.go.env.map fmtEnvPair := by
    unfold Service.buildCommand
    exact appendEnv_eq spec.go.env snapshot.env
  refine ⟨henv, ?_, ?_, ?_⟩
  · intro e he
    rw [henv]
    exact List.mem_append_left _ he
  · intro p hp
    rw [henv]
    exact List.mem_append_right _ (List.mem_map_of_mem _ hp)
  · intro k v hkeys hfind
    have hkmem : (k, v) ∈ spec.go.env :=
      List.mem_reverse.mp (List.mem_of_find?_eq_some hfind)
    have hknoeq : '=' ∉ k.data := hkeys (k, v) hkmem
    rw [henv]
    unfold envValue
    rw [List.reverse_append, List.find?_append]
    have hfind2 : ((spec.go.env.map fmtEnvPair).reverse).find?
        (fun e => (splitEnvEntry e.data).1 == k.data)
        = some (fmtEnvPair (k, v)) := by
      rw [← List.map_reverse, List.find?_map]
      have hcong : (spec.go.env.reverse).find?
          ((fun e => (splitEnvEntry e.data).1 == k.data) ∘ fmtEnvPair)
          = (spec.go.env.reverse).find? (fun p => p.1 == k) := by
        apply find_congr
        intro p hp
        have hpe := hkeys p (List.mem_reverse.mp hp)
        show ((splitEnvEntry (fmtEnvPair p).data).1 == k.data) = (p.1 == k)
        rw [fmtEnvPair_data p, splitEnvEntry_append p.1.data p.2.data hpe]
        exact beq_data_eq_beq p.1 k
      rw [hcong, hfind]
      rfl
    rw [hfind2]
    simp only [Option.or]
    rw [fmtEnvPair_data (k, v), splitEnvEntry_append k.data v.data hknoeq]

/-- Witness for C8: a snapshot entry and a spec pair colliding on the
key `GOOS` resolve to the spec's value. -/
theorem build_command_env_append_precedence_witness :
    (Service.buildCommand extOk (snap0 "plugin") specLocal).env
      = ["GOOS=linux", "CGO_ENABLED=1", "GOOS=darwin"]
    ∧ envValue "GOOS".data
        (Service.buildCommand extOk (snap0 "plugin") specLocal).env
      = some "darwin".data := by
  constructor
  · rw [(build_command_env_append_precedence extOk (snap0 "plugin") specLocal).1]
    rfl
  · exact (build_command_env_append_precedence extOk (snap0 "plugin")
      specLocal).2.2.2 "GOOS" "darwin" (by decide) (by decide)

/-- Any spec forwarded to a remote endpoint by `delegateBuildOrFail`
carries a cleared forced-delegation flag. -/
theorem delegate_clientBuild_cleared (cfg : Config) (ext : Ext)
    (spec : BuildSpec) (err : Option Err) :
    ∀ url s, Event.clientBuild url s
      ∈ (Service.delegateBuildOrFail cfg ext spec err).2 →
      s.go.ensureTheSameOs = false := by
  intro url s hmem
  unfold Service.delegateBuildOrFail at hmem
  simp only [] at hmem
  split at hmem
  · simp at hmem
  · next d heq =>
    split at hmem
    · next e evs heq2 =>
      have hed := ensureDocker_events ext d
      rw [heq2] at hed
      rcases List.mem_cons.mp hmem with h | h
      · exact absurd h (by simp)
      · rcases hed _ h with h2 | h2 <;> simp at h2
    · next evs heq2 =>
      have hed := ensureDocker_events ext d
      rw [heq2] at hed
      rcases List.mem_cons.mp hmem with h | h
      · exact absurd h (by simp)
      · rcases List.mem_append.mp h with h | h
        · rcases hed _ h with h2 | h2 <;> simp at h2
        · rcases List.mem_cons.mp h with h | h
          · have h2 := (Event.clientBuild.injEq _ _ _ _).mp h
            rw [h2.2]
          · simp at h

/-- C1: the forced-delegation flag is cleared on the spec before the
delegation registry is searched — `delegateBuildOrFail` is insensitive
to the incoming flag, behaving exactly as on the pre-cleared spec — and
every spec sent over the network, whether from `delegateBuildOrFail` or
from any full `Service.Build` run, has the flag equal to false. -/
theorem delegate_clears_forced_flag (cfg : Config) (ext : Ext)
    (spec : BuildSpec) (err : Option Err) (fs : FS)
    (opts : List (BuildSpec → BuildSpec)) :
    (∀ url s, Event.clientBuild url s
        ∈ (Service.delegateBuildOrFail cfg ext spec err).2 →
        s.go.ensureTheSameOs = false)
    ∧ Service.delegateBuildOrFail cfg ext spec err
        = Service.delegateBuildOrFail cfg ext
            { spec with go := { spec.go with ensureTheSameOs := false } } err
    ∧ (∀ url s, Event.clientBuild url s
        ∈ (Service.Build cfg ext fs opts spec).2.2 →
        s.go.ensureTheSameOs = false) := by
  refine ⟨delegate_clientBuild_cleared cfg ext spec err, ?_, ?_⟩
  · rfl
  · intro url s hmem
    unfold Service.Build at hmem
    simp only [] at hmem
    split at hmem
    · simp at hmem
    · split at hmem
      · exact delegate_clientBuild_cleared cfg ext _ _ url s hmem
      · have h2 := buildLocally_no_delegation cfg ext fs
          (ext.initSpec (applyOpts opts spec)) _ hmem
        simp [Event.isDelegationEvent] at h2

/-- Witness for C1 at a registry whose single delegation matches the
forced spec. -/
theorem delegate_clears_forced_flag_witness :
    ({ specForced with go := { specForced.go with ensureTheSameOs := false } }
       : BuildSpec).go.ensureTheSameOs = false
    ∧ Service.delegateBuildOrFail cfgOneDelegation extOk specForced none
        = Service.delegateBuildOrFail cfgOneDelegation extOk
            { specForced with go := { specForced.go with ensureTheSameOs := false } }
            none :=
  ⟨(delegate_clears_forced_flag cfgOneDelegation extOk specForced none [] []).1
      "http:remote:8080"
      { specForced with go := { specForced.go with ensureTheSameOs := false } }
      (by decide),
   (delegate_clears_forced_flag cfgOneDelegation extOk specForced none [] []).2.1⟩

/-- C3: for a valid spec whose runtime equals the host runtime and whose
forced-delegation flag is clear, `Service.Build` takes the local-build
path and its trace holds no delegation events — in particular the
registry's match operation is never invoked. -/
theorem build_local_never_consults_registry
    (cfg : Config) (ext : Ext) (fs : FS) (opts : List (BuildSpec → BuildSpec))
    (spec0 s : BuildSpec)
    (hs : ext.initSpec (applyOpts opts spec0) = s)
    (hval : ext.validate s = none)
    (hrt : s.go.runtime = cfg.runtime)
    (hflag : s.go.ensureTheSameOs = false) :
    Service.Build cfg ext fs opts spec0 = Service.buildLocally cfg ext fs s
    ∧ ∀ e ∈ (Service.Build cfg ext fs opts spec0).2.2,
        e.isDelegationEvent = false := by
  have heq : Service.Build cfg ext fs opts spec0
      = Service.buildLocally cfg ext fs s := by
    unfold Service.Build
    simp only []
    rw [hs, hval]
    have hv : ValidateOsAndArch cfg.runtime s.go.runtime = none := by
      unfold ValidateOsAndArch
      rw [if_pos hrt]
    rw [hv, hflag]
    simp
  refine ⟨heq, ?_⟩
  rw [heq]
  exact buildLocally_no_delegation cfg ext fs s

/-- Witness for C3: a linux/amd64 spec on a linux/amd64 host takes the
local path. -/
theorem build_local_never_consults_registry_witness :
    Service.Build cfgNoDelegations extOk [] [] specLocal
      = Service.buildLocally cfgNoDelegations extOk [] specLocal :=
  (build_local_never_consults_registry cfgNoDelegations extOk [] [] specLocal
    specLocal rfl (by decide) rfl rfl).1

end Pgo
